import Mathlib

/-!
Verification of the JURASSIC radiative-transfer core against its
natural-language specification.

The definitions below are shallow embeddings of the C sources:
numerical macros from `jurassic.h` are modelled over the real numbers,
and the control flow of `retrieval.c` and `formod.c` is modelled as
state-passing functions over the rationals (an idealisation of the
double-precision arithmetic of the source).  External library calls
(GSL linear algebra, the forward model defined outside the provided
sources) appear as explicit function parameters.
-/

namespace Jurassic

noncomputable section RealMacros

/-- First spectroscopic constant C1 from jurassic.h. -/
def specC1 : ℝ := 1.19104259e-8

/-- Second spectroscopic constant C2 from jurassic.h. -/
def specC2 : ℝ := 1.43877506

/-- Macro POW3 from jurassic.h: cube of a value. -/
def POW3 (x : ℝ) : ℝ := x * x * x

/-- Macro PLANCK from jurassic.h: Planck radiance
`C1 * POW3(nu) / gsl_expm1(C2 * nu / T)` with `gsl_expm1 x = exp x - 1`. -/
def PLANCK (T nu : ℝ) : ℝ :=
  specC1 * POW3 nu / (Real.exp (specC2 * nu / T) - 1)

/-- Macro BRIGHT from jurassic.h: brightness temperature
`C2 * nu / gsl_log1p(C1 * POW3(nu) / rad)` with `gsl_log1p x = log (1 + x)`. -/
def BRIGHT (rad nu : ℝ) : ℝ :=
  specC2 * nu / Real.log (1 + specC1 * POW3 nu / rad)

/-- Macro LIN from jurassic.h: linear interpolation. -/
def LIN (x0 y0 x1 y1 x : ℝ) : ℝ :=
  y0 + (y1 - y0) / (x1 - x0) * (x - x0)

/-- Macro LOGX from jurassic.h: log-x interpolation guarded by the
IEEE ratio conditions `x/x0 > 0` and `x1/x0 > 0`, with fallback to LIN.
The guard divisions follow IEEE semantics for finite inputs (zero taken
as +0.0): for x0 = 0 the quotients are infinities or NaN, so the guard
passes exactly when x > 0 and x1 > 0, and the log branch then evaluates
log(inf)/log(inf), leaving the reals.  A result of none marks every
path on which the IEEE evaluation involves a division by zero or an
infinite or NaN intermediate value and hence yields no real result
(this also covers x1 = x0 inside the log branch, where log(x1/x0) = 0
divides the numerator); rounding and overflow of finite arithmetic are
outside the model. -/
def LOGX (x0 y0 x1 y1 x : ℝ) : Option ℝ :=
  if x0 = 0 then
    if 0 < x ∧ 0 < x1 then none
    else some (LIN x0 y0 x1 y1 x)
  else
    if 0 < x / x0 ∧ 0 < x1 / x0 then
      if x1 = x0 then none
      else some (y0 + (y1 - y0) * Real.log (x / x0) / Real.log (x1 / x0))
    else some (LIN x0 y0 x1 y1 x)

/-- Macro LOGY from jurassic.h: log-y interpolation guarded by the
IEEE ratio condition `y1/y0 > 0`, with fallback to LIN.  The guard
division follows IEEE semantics for finite inputs (zero taken as
+0.0): for y0 = 0 the quotient is an infinity or NaN, so the guard
passes exactly when y1 > 0, and the exponential branch then evaluates
with the infinite intermediate log(inf), leaving the reals.  A result
of none marks every path on which the IEEE evaluation involves a
division by zero or an infinite or NaN intermediate value and hence
yields no real result (this also covers x1 = x0 inside the
exponential branch, where the exponent divides by x1 - x0 = 0);
rounding and overflow of finite arithmetic are outside the model. -/
def LOGY (x0 y0 x1 y1 x : ℝ) : Option ℝ :=
  if y0 = 0 then
    if 0 < y1 then none
    else some (LIN x0 y0 x1 y1 x)
  else
    if 0 < y1 / y0 then
      if x1 = x0 then none
      else some (y0 * Real.exp (Real.log (y1 / y0) / (x1 - x0) * (x - x0)))
    else some (LIN x0 y0 x1 y1 x)

end RealMacros

/-- Atmospheric profile data (atm_t from jurassic.h), restricted to the
fields touched by the bounds check of optimal_estimation.  Profile
quantities are lists of length np (per gas and per window for q and k). -/
structure AtmQ where
  p : List ℚ
  t : List ℚ
  q : List (List ℚ)
  k : List (List ℚ)
  clz : ℚ
  cldz : ℚ
  clk : List ℚ
  sft : ℚ
  sfeps : List ℚ
deriving DecidableEq

/-- The bounds check of retrieval.c (optimal_estimation, inner trial
loop): clamp p to [5e-7, 5e4], t to [100, 400], q to [0, 1], k to
[0, inf), clz to [0, inf), cldz to [0.1, inf), clk to [0, inf), sft to
[100, 400], sfeps to [0, 1]. -/
def check_atm (a : AtmQ) : AtmQ where
  p := a.p.map (fun x => min (max x (5e-7 : ℚ)) (5e4 : ℚ))
  t := a.t.map (fun x => min (max x 100) 400)
  q := a.q.map (fun col => col.map (fun x => min (max x 0) 1))
  k := a.k.map (fun col => col.map (fun x => max x 0))
  clz := max a.clz 0
  cldz := max a.cldz (1 / 10)
  clk := a.clk.map (fun x => max x 0)
  sft := min (max a.sft 100) 400
  sfeps := a.sfeps.map (fun x => min (max x 0) 1)

/-- The physical bounds asserted by the spec for the trial atmosphere
after clamping, as a decidable check. -/
def atm_in_bounds (a : AtmQ) : Bool :=
  a.p.all (fun x => decide ((5e-7 : ℚ) ≤ x ∧ x ≤ (5e4 : ℚ))) &&
  a.t.all (fun x => decide ((100 : ℚ) ≤ x ∧ x ≤ 400)) &&
  a.q.all (fun col => col.all (fun x => decide ((0 : ℚ) ≤ x ∧ x ≤ 1))) &&
  a.k.all (fun col => col.all (fun x => decide ((0 : ℚ) ≤ x))) &&
  decide ((0 : ℚ) ≤ a.clz) &&
  decide ((1 / 10 : ℚ) ≤ a.cldz) &&
  a.clk.all (fun x => decide ((0 : ℚ) ≤ x)) &&
  decide ((100 : ℚ) ≤ a.sft ∧ a.sft ≤ 400) &&
  a.sfeps.all (fun x => decide ((0 : ℚ) ≤ x ∧ x ≤ 1))

/-- Per-channel relative-error samples of compute_rel_errors in
formod.c: pairs of (test, reference) radiances over the rays, skipping
rays whose reference radiance is zero, each contributing the relative
error 100 (test - ref) / ref. -/
def relerr_samples (test ref : List ℚ) : List ℚ :=
  (List.zip test ref).filterMap
    (fun pr => if pr.2 = 0 then none else some (100 * (pr.1 - pr.2) / pr.2))

/-- Per-channel mean relative error as computed by compute_rel_errors
in formod.c: the sum of the relative-error samples divided by the
sample count n.  The source divides by n unconditionally; when n = 0
the IEEE division 0.0/0 yields no defined numeric value, modelled here
as the none case of the fallible result. -/
def mre_result (test ref : List ℚ) : Option ℚ :=
  let s := relerr_samples test ref
  if s.length = 0 then none
  else some (s.sum / (s.length : ℚ))

/-- One atmospheric sample point as copied by call_formod in formod.c
for the multiple-profile task. -/
structure AtmPt where
  time : ℚ
  z : ℚ
  lon : ℚ
  lat : ℚ
  p : ℚ
  t : ℚ
  q : List ℚ
  k : List ℚ
deriving DecidableEq

/-- One ray of the observation set (obs_t from jurassic.h), with the
per-channel radiance and transmittance stored for that ray. -/
structure RayQ where
  time : ℚ
  obsz : ℚ
  obslon : ℚ
  obslat : ℚ
  vpz : ℚ
  vplon : ℚ
  vplat : ℚ
  rad : List ℚ
  tau : List ℚ
deriving DecidableEq

/-- The per-ray atmosphere selection loop of call_formod (formod.c,
multiple-profile task): walk the atmosphere in order and append every
point whose time equals the ray time. -/
def select_atm (atm : List AtmPt) (t : ℚ) : List AtmPt :=
  atm.foldl (fun acc pt => if pt.time = t then acc ++ [pt] else acc) []

/-- The per-ray body of call_formod for the multiple-profile task: if
the selected atmosphere is non-empty, run the forward model F on it and
store the resulting radiances and transmittances for the ray; otherwise
leave the ray untouched.  F stands for the formod call (its definition
is outside the provided sources). -/
def call_formod_ray (F : List AtmPt → RayQ → List ℚ × List ℚ)
    (atm : List AtmPt) (r : RayQ) : RayQ :=
  let atm2 := select_atm atm r.time
  if 0 < atm2.length then
    { r with rad := (F atm2 r).1, tau := (F atm2 r).2 }
  else r

/-- A concrete forward model used in witnesses. -/
def fmConst : List AtmPt → RayQ → List ℚ × List ℚ := fun _ _ => ([5], [6])

/-- A concrete atmosphere point with time 1, used in witnesses. -/
def ptOne : AtmPt := ⟨1, 0, 0, 0, 0, 0, [], []⟩

/-- A concrete ray with time 2 and stored radiance and transmittance,
used in witnesses. -/
def rayTwo : RayQ := ⟨2, 0, 0, 0, 0, 0, 0, [3], [4]⟩

/-- Environment of optimal_estimation (retrieval.c): the fixed data and
the library calls of one retrieval whose bodies are outside the
provided sources.  mkAtm models copy_atm, x2atm and the bounds check
applied to a state vector; mkObs models the formod forward calculation;
mkY models obs2y; cost models cost_function with the covariance data
folded in. -/
structure RetEnv (V W Atm Obs : Type) where
  x_a : V
  y_m : W
  mkAtm : V → Atm
  mkObs : Atm → Obs
  mkY : Obs → W
  cost : V → W → ℚ

/-- The mutable state of the Levenberg-Marquardt iteration in
optimal_estimation: state vector x_i, damping parameter lmpar, cost
chisq, trial atmosphere and observation, fitted measurement y_i,
departures dx and dy, and the last step x_step. -/
structure LMState (V W Atm Obs : Type) where
  x_i : V
  lmpar : ℚ
  chisq : ℚ
  atm_i : Atm
  obs_i : Obs
  y_i : W
  dx : V
  dy : W
  xstep : V
deriving DecidableEq

variable {V W Atm Obs : Type}

/-- One trial of the inner loop of optimal_estimation (retrieval.c,
lines 240-295): solve for the step at the current damping, update the
state vector, rebuild the trial atmosphere and observation, run the
forward model, recompute dx, dy and the cost, then either reject
(cost increased: multiply lmpar by 10 and subtract the step back from
x_i) or accept (divide lmpar by 10).  The Bool is true when the trial
was accepted and the loop breaks. -/
def lm_trial [AddCommGroup V] [AddCommGroup W]
    (E : RetEnv V W Atm Obs) (solve : ℚ → V) (chisq_old : ℚ)
    (s : LMState V W Atm Obs) : LMState V W Atm Obs × Bool :=
  let xs := solve s.lmpar
  let x1 := s.x_i + xs
  let atm1 := E.mkAtm x1
  let obs1 := E.mkObs atm1
  let y1 := E.mkY obs1
  let dx1 := x1 - E.x_a
  let dy1 := E.y_m - y1
  let c1 := E.cost dx1 dy1
  if chisq_old < c1 then
    (⟨x1 - xs, s.lmpar * 10, c1, atm1, obs1, y1, dx1, dy1, xs⟩, false)
  else
    (⟨x1, s.lmpar / 10, c1, atm1, obs1, y1, dx1, dy1, xs⟩, true)

/-- The cost of the trial state built by lm_trial from state s. -/
def lm_trial_cost [AddCommGroup V] [AddCommGroup W]
    (E : RetEnv V W Atm Obs) (solve : ℚ → V)
    (s : LMState V W Atm Obs) : ℚ :=
  E.cost (s.x_i + solve s.lmpar - E.x_a)
    (E.y_m - E.mkY (E.mkObs (E.mkAtm (s.x_i + solve s.lmpar))))

/-- The inner loop of optimal_estimation: up to fuel trials (20 in the
source), stopping at the first accepted one. -/
def lm_inner [AddCommGroup V] [AddCommGroup W]
    (E : RetEnv V W Atm Obs) (solve : ℚ → V) (chisq_old : ℚ) :
    ℕ → LMState V W Atm Obs → LMState V W Atm Obs
  | 0, s => s
  | k + 1, s =>
    let t := lm_trial E solve chisq_old s
    if t.2 then t.1 else lm_inner E solve chisq_old k t.1

/-- Environment of the outer Levenberg-Marquardt loop: the retrieval
environment plus the kernel recomputation period, the convergence
threshold conv_dmin, the state dimension n (as a rational), and the
library calls whose bodies are outside the provided sources: kernelF
models kernel; covF models matrix_product(k_i, sig_eps_inv, 1); bF
models the assembly of b from k_i, dx and dy; solveF models the
Cholesky solve of A x_step = b given cov, b and lmpar; dot models
gsl_blas_ddot. -/
structure OEnv (V W Atm Obs Kmat Cov : Type) where
  base : RetEnv V W Atm Obs
  krecomp : ℕ
  dmin : ℚ
  nstate : ℚ
  kernelF : Atm → Obs → Kmat
  covF : Kmat → Cov
  bF : Kmat → V → W → V
  solveF : Cov → V → ℚ → V
  dot : V → V → ℚ

/-- The state carried across outer iterations: the Levenberg-Marquardt
state plus the kernel matrix, the normal-matrix product cov and the
right-hand side b. -/
structure OState (V W Atm Obs Kmat Cov : Type) where
  lm : LMState V W Atm Obs
  k_i : Kmat
  cov : Cov
  b : V
deriving DecidableEq

variable {Kmat Cov : Type}

/-- One outer iteration of optimal_estimation (retrieval.c, lines
219-309), for iteration number it: store chisq_old, recompute the
kernel when it > 1 and it mod kernel_recomp = 0, recompute cov when
it = 1 or it mod kernel_recomp = 0, assemble b, run the inner loop with
20 trials, and compute the normalised step size disq = x_step . b / n.
The Bool is the convergence test of line 308: break when (it = 1 or
it mod kernel_recomp = 0) and disq < conv_dmin. -/
def lm_outer_iter [AddCommGroup V] [AddCommGroup W]
    (E : OEnv V W Atm Obs Kmat Cov) (it : ℕ)
    (s : OState V W Atm Obs Kmat Cov) :
    OState V W Atm Obs Kmat Cov × ℚ × Bool :=
  let chisq_old := s.lm.chisq
  let k1 := if 1 < it ∧ it % E.krecomp = 0 then E.kernelF s.lm.atm_i s.lm.obs_i
            else s.k_i
  let cov1 := if it = 1 ∨ it % E.krecomp = 0 then E.covF k1 else s.cov
  let b1 := E.bF k1 s.lm.dx s.lm.dy
  let lm1 := lm_inner E.base (E.solveF cov1 b1) chisq_old 20 s.lm
  let disq := E.dot lm1.xstep b1 / E.nstate
  (⟨lm1, k1, cov1, b1⟩, disq,
    decide ((it = 1 ∨ it % E.krecomp = 0) ∧ disq < E.dmin))

/-- The outer loop of optimal_estimation, iterations it, it+1, ... with
the given fuel (conv_itmax iterations in the source, starting at
it = 1).  Returns the final state and the list of executed iterations
with their normalised step sizes disq. -/
def lm_outer [AddCommGroup V] [AddCommGroup W]
    (E : OEnv V W Atm Obs Kmat Cov) :
    ℕ → ℕ → OState V W Atm Obs Kmat Cov →
    OState V W Atm Obs Kmat Cov × List (ℕ × ℚ)
  | 0, _, s => (s, [])
  | f + 1, it, s =>
    let r := lm_outer_iter E it s
    if r.2.2 then (r.1, [(it, r.2.1)])
    else
      let rest := lm_outer E f (it + 1) r.1
      (rest.1, (it, r.2.1) :: rest.2)

/-- A concrete retrieval environment with constant zero cost: every
trial is accepted. -/
def envAcc : RetEnv ℚ ℚ ℚ ℚ := ⟨0, 0, id, id, id, fun _ _ => 0⟩

/-- A concrete retrieval environment with constant cost 5: every trial
whose reference cost is below 5 is rejected. -/
def envRej : RetEnv ℚ ℚ ℚ ℚ := ⟨0, 0, id, id, id, fun _ _ => 5⟩

/-- A concrete solver returning the zero step. -/
def solveZero : ℚ → ℚ := fun _ => 0

/-- A concrete Levenberg-Marquardt state with x_i = 0 and lmpar = 1. -/
def lmS0 : LMState ℚ ℚ ℚ ℚ := ⟨0, 1, 2, 0, 0, 0, 0, 0, 0⟩

/-- A concrete outer-loop environment with kernel_recomp = 3 and
conv_dmin = 1/2, whose right-hand side b = 1 - dx drives the step to
zero after the first iteration. -/
def envSkip : OEnv ℚ ℚ ℚ ℚ ℚ ℚ where
  base := envAcc
  krecomp := 3
  dmin := 1 / 2
  nstate := 1
  kernelF := fun _ _ => 0
  covF := fun _ => 0
  bF := fun _ dx _ => 1 - dx
  solveF := fun _ b _ => b
  dot := fun a b => a * b

/-- The initial outer state for the counterexample run: x_i = 0,
lmpar = 1/1000, chisq = 0. -/
def sSkip : OState ℚ ℚ ℚ ℚ ℚ ℚ := ⟨⟨0, 1 / 1000, 0, 0, 0, 0, 0, 0, 0⟩, 0, 0, 0⟩

/-- A concrete outer-loop environment which converges at once: b = 0,
so disq = 0 < conv_dmin = 1. -/
def envConv : OEnv ℚ ℚ ℚ ℚ ℚ ℚ where
  base := envAcc
  krecomp := 1
  dmin := 1
  nstate := 1
  kernelF := fun _ _ => 0
  covF := fun _ => 0
  bF := fun _ _ _ => 0
  solveF := fun _ b _ => b
  dot := fun a b => a * b

section NormalEquations

variable {R : Type} [CommRing R] {m n : ℕ}

/-- Inverse measurement covariance S_eps^-1: the diagonal matrix of the
squared entries of the vector sig_eps_inv which represents it in
retrieval.c. -/
def s_eps_inv (sig : Fin m → R) : Matrix (Fin m) (Fin m) R :=
  Matrix.diagonal (fun i => sig i * sig i)

/-- Lines 233-235 of retrieval.c: the auxiliary vector
y_aux i = dy i * POW2(sig_eps_inv i). -/
def y_aux (sig dy : Fin m → R) : Fin m → R :=
  fun i => dy i * (sig i * sig i)

/-- Lines 236-237 of retrieval.c: the two dgemv calls assembling
b = K^T y_aux - S_a^-1 dx. -/
def b_code (k : Matrix (Fin m) (Fin n) R) (sig : Fin m → R)
    (s_a_inv : Matrix (Fin n) (Fin n) R) (dx : Fin n → R)
    (dy : Fin m → R) : Fin n → R :=
  k.transpose.mulVec (y_aux sig dy) - s_a_inv.mulVec dx

/-- Modelled from the spec: the body of matrix_product is not among the
provided sources; for mode 1 the spec and the call-site comment state
that it computes cov = K^T S_eps^-1 K. -/
def matrix_product_ksk (k : Matrix (Fin m) (Fin n) R)
    (sig : Fin m → R) : Matrix (Fin n) (Fin n) R :=
  k.transpose * s_eps_inv sig * k

/-- Lines 243-245 of retrieval.c: A = (1 + lmpar) * S_a^-1 + cov. -/
def a_code (s_a_inv cov : Matrix (Fin n) (Fin n) R) (lmpar : R) :
    Matrix (Fin n) (Fin n) R :=
  (1 + lmpar) • s_a_inv + cov

/-- The matrix A as the spec states it:
A = (1 + lambda) S_a^-1 + K^T S_eps^-1 K. -/
def spec_A (s_a_inv : Matrix (Fin n) (Fin n) R)
    (k : Matrix (Fin m) (Fin n) R) (sig : Fin m → R) (lmpar : R) :
    Matrix (Fin n) (Fin n) R :=
  (1 + lmpar) • s_a_inv + k.transpose * s_eps_inv sig * k

/-- The right-hand side b as the spec states it:
b = K^T S_eps^-1 (y_m - y_i) - S_a^-1 (x_i - x_a). -/
def spec_b (k : Matrix (Fin m) (Fin n) R) (sig : Fin m → R)
    (s_a_inv : Matrix (Fin n) (Fin n) R) (x_i x_a : Fin n → R)
    (y_m y_i : Fin m → R) : Fin n → R :=
  k.transpose.mulVec ((s_eps_inv sig).mulVec (y_m - y_i)) -
    s_a_inv.mulVec (x_i - x_a)

end NormalEquations

/-- A concrete zero kernel matrix, used in witnesses. -/
def kZero : Matrix (Fin 1) (Fin 1) ℚ := 0

/-- A concrete inverse-sigma vector, used in witnesses. -/
def sigOne : Fin 1 → ℚ := fun _ => 1

/-- A concrete inverse a priori covariance (the identity), used in
witnesses. -/
def saId : Matrix (Fin 1) (Fin 1) ℚ := 1

/-- The zero state vector of dimension one, used in witnesses. -/
def vZero : Fin 1 → ℚ := 0

end Jurassic

namespace Jurassic

/-- Clamping to [lo, hi] via min and max lands in [lo, hi] when
lo ≤ hi. -/
theorem clamp_bounds (x : ℚ) {lo hi : ℚ} (h : lo ≤ hi) :
    lo ≤ min (max x lo) hi ∧ min (max x lo) hi ≤ hi :=
  ⟨le_min (le_max_right x lo) h, min_le_right _ _⟩

/-- Every element of a list clamped to [lo, hi] passes the bounds
check, when lo ≤ hi. -/
theorem all_map_clamp (l : List ℚ) {lo hi : ℚ} (h : lo ≤ hi) :
    (l.map (fun x => min (max x lo) hi)).all
      (fun x => decide (lo ≤ x ∧ x ≤ hi)) = true := by
  rw [List.all_map]
  rw [List.all_eq_true]
  intro x _
  simp only [Function.comp_apply, decide_eq_true_eq]
  exact clamp_bounds x h

/-- Every element of a list clamped from below by lo passes the
one-sided bounds check. -/
theorem all_map_floor (l : List ℚ) (lo : ℚ) :
    (l.map (fun x => max x lo)).all (fun x => decide (lo ≤ x)) = true := by
  rw [List.all_map]
  rw [List.all_eq_true]
  intro x _
  simp only [Function.comp_apply, decide_eq_true_eq]
  exact le_max_right x lo

/-- C3: for every wavenumber nu > 0 and temperature T in [100, 400] K,
the composition BRIGHT(PLANCK(T, nu), nu) equals T exactly in real
arithmetic. -/
theorem bright_planck_roundtrip (nu T : ℝ) (hnu : 0 < nu)
    (hT1 : 100 ≤ T) (_hT2 : T ≤ 400) :
    BRIGHT (PLANCK T nu) nu = T := by
  have hT : 0 < T := lt_of_lt_of_le (by norm_num) hT1
  have hC2 : (0 : ℝ) < specC2 := by norm_num [specC2]
  have ha : 0 < specC2 * nu / T := by positivity
  set a := specC2 * nu / T with ha_def
  have hexp1 : (1 : ℝ) < Real.exp a := by
    have h := Real.add_one_le_exp a
    linarith
  have hexp : 0 < Real.exp a - 1 := by linarith
  have hC1 : (0 : ℝ) < specC1 := by norm_num [specC1]
  have hp3 : 0 < POW3 nu := by
    unfold POW3; positivity
  have hnum : 0 < specC1 * POW3 nu := by positivity
  have hPL : PLANCK T nu = specC1 * POW3 nu / (Real.exp a - 1) := rfl
  have hratio : specC1 * POW3 nu / PLANCK T nu = Real.exp a - 1 := by
    rw [hPL]
    field_simp
  rw [BRIGHT, hratio]
  have hlog : Real.log (1 + (Real.exp a - 1)) = a := by
    have : 1 + (Real.exp a - 1) = Real.exp a := by ring
    rw [this, Real.log_exp]
  rw [hlog, ha_def]
  have hC2nu : specC2 * nu ≠ 0 := by positivity
  field_simp

/-- C3 witness: the round trip at the concrete input T = 250 K,
nu = 667 cm^-1. -/
theorem bright_planck_roundtrip_witness :
    BRIGHT (PLANCK 250 667) 667 = 250 :=
  bright_planck_roundtrip 667 250 (by norm_num) (by norm_num) (by norm_num)

/-- C5 counterexample: with x0 = -1 (a non-positive x-axis argument),
LOGX(-1, 0, -2, 1, -4) = 2 while LIN(-1, 0, -2, 1, -4) = 3, so the
macro does not fall back to linear interpolation there. -/
theorem logx_claim_counterexample :
    LOGX (-1) 0 (-2) 1 (-4) = some 2 ∧ LIN (-1) 0 (-2) 1 (-4) = 3 ∧
      (-1 : ℝ) ≤ 0 := by
  refine ⟨?_, ?_, by norm_num⟩
  · have hcond : (0 : ℝ) < (-4) / (-1) ∧ (0 : ℝ) < (-2) / (-1) := by
      norm_num
    rw [LOGX, if_neg (by norm_num : ¬((-1 : ℝ) = 0)), if_pos hcond,
      if_neg (by norm_num : ¬((-2 : ℝ) = -1))]
    have h4 : ((-4 : ℝ)) / (-1) = 4 := by norm_num
    have h2 : ((-2 : ℝ)) / (-1) = 2 := by norm_num
    rw [h4, h2]
    have hlog4 : Real.log 4 = 2 * Real.log 2 := by
      have : (4 : ℝ) = 2 ^ 2 := by norm_num
      rw [this, Real.log_pow]
      push_cast
      ring
    have hlog2 : Real.log 2 ≠ 0 := ne_of_gt (Real.log_pos (by norm_num))
    rw [hlog4]
    congr 1
    field_simp
  · rw [LIN]; norm_num

/-- C5 amended: LOGX interpolates y linearly in log of the x-ratios
exactly when x0, x1, x all share a strict sign (all positive or all
negative) and x1 is not equal to x0; its LIN fallback occurs exactly
when the IEEE guard fails, namely for x0 not zero when x and x1 do not
both share the strict sign of x0, and for x0 = 0 when x and x1 are not
both positive; on the remaining paths (x0 = 0 with x, x1 > 0, where
the guard passes through infinite quotients, and x1 = x0 inside the
log branch) the IEEE evaluation yields no real result. -/
theorem logx_fallback_characterization (x0 y0 x1 y1 x : ℝ) :
    LOGX x0 y0 x1 y1 x =
      if (0 < x0 ∧ 0 < x1 ∧ 0 < x) ∨ (x0 < 0 ∧ x1 < 0 ∧ x < 0) then
        (if x1 = x0 then none
         else some (y0 + (y1 - y0) * Real.log (x / x0) / Real.log (x1 / x0)))
      else if x0 = 0 ∧ 0 < x ∧ 0 < x1 then none
      else some (LIN x0 y0 x1 y1 x) := by
  by_cases hx0 : x0 = 0
  · subst hx0
    rw [LOGX, if_pos rfl]
    rw [if_neg (by simp : ¬(((0 : ℝ) < 0 ∧ 0 < x1 ∧ 0 < x) ∨
      ((0 : ℝ) < 0 ∧ x1 < 0 ∧ x < 0)))]
    by_cases h : 0 < x ∧ 0 < x1
    · rw [if_pos h, if_pos ⟨rfl, h.1, h.2⟩]
    · rw [if_neg h, if_neg (fun hc => h ⟨hc.2.1, hc.2.2⟩)]
  · have hiff : (0 < x / x0 ∧ 0 < x1 / x0) ↔
        ((0 < x0 ∧ 0 < x1 ∧ 0 < x) ∨ (x0 < 0 ∧ x1 < 0 ∧ x < 0)) := by
      rw [div_pos_iff, div_pos_iff]
      constructor
      · rintro ⟨hx | hx, hx1 | hx1⟩
        · exact Or.inl ⟨hx.2, hx1.1, hx.1⟩
        · exact absurd hx.2 (not_lt.mpr (le_of_lt hx1.2))
        · exact absurd hx1.2 (not_lt.mpr (le_of_lt hx.2))
        · exact Or.inr ⟨hx.2, hx1.1, hx.1⟩
      · rintro (⟨h0, h1, hx⟩ | ⟨h0, h1, hx⟩)
        · exact ⟨Or.inl ⟨hx, h0⟩, Or.inl ⟨h1, h0⟩⟩
        · exact ⟨Or.inr ⟨hx, h0⟩, Or.inr ⟨h1, h0⟩⟩
    rw [LOGX, if_neg hx0]
    by_cases h : (0 < x0 ∧ 0 < x1 ∧ 0 < x) ∨ (x0 < 0 ∧ x1 < 0 ∧ x < 0)
    · rw [if_pos (hiff.mpr h), if_pos h]
    · rw [if_neg (fun hc => h (hiff.mp hc)), if_neg h,
        if_neg (fun hc => hx0 hc.1)]

/-- C6 counterexample: with y0 = -1 and y1 = -2 (both non-positive),
LOGY(0, -1, 1, -2, 2) = -4 while LIN(0, -1, 1, -2, 2) = -3, so the
macro does not fall back to linear interpolation there. -/
theorem logy_claim_counterexample :
    LOGY 0 (-1) 1 (-2) 2 = some (-4) ∧ LIN 0 (-1) 1 (-2) 2 = -3 ∧
      (-1 : ℝ) ≤ 0 := by
  refine ⟨?_, ?_, by norm_num⟩
  · have hcond : (0 : ℝ) < (-2) / (-1) := by norm_num
    rw [LOGY, if_neg (by norm_num : ¬((-1 : ℝ) = 0)), if_pos hcond,
      if_neg (by norm_num : ¬((1 : ℝ) = 0))]
    have h2 : ((-2 : ℝ)) / (-1) = 2 := by norm_num
    rw [h2]
    have harg : Real.log 2 / (1 - 0) * (2 - 0) = Real.log 2 + Real.log 2 := by
      ring
    rw [harg, Real.exp_add, Real.exp_log (by norm_num : (0 : ℝ) < 2)]
    norm_num
  · rw [LIN]; norm_num

/-- C6 amended: LOGY interpolates exponentially (log y linear in x for
positive endpoints) exactly when y0 and y1 share a strict sign (both
positive or both negative) and x1 is not equal to x0; its LIN fallback
occurs exactly when the IEEE guard fails, namely for y0 not zero when
y1 does not share the strict sign of y0, and for y0 = 0 when y1 is not
positive; on the remaining paths (y0 = 0 with y1 > 0, where the guard
passes through an infinite quotient, and x1 = x0 inside the
exponential branch) the IEEE evaluation yields no real result. -/
theorem logy_fallback_characterization (x0 y0 x1 y1 x : ℝ) :
    LOGY x0 y0 x1 y1 x =
      if (0 < y0 ∧ 0 < y1) ∨ (y0 < 0 ∧ y1 < 0) then
        (if x1 = x0 then none
         else some (y0 * Real.exp (Real.log (y1 / y0) / (x1 - x0) * (x - x0))))
      else if y0 = 0 ∧ 0 < y1 then none
      else some (LIN x0 y0 x1 y1 x) := by
  by_cases hy0 : y0 = 0
  · subst hy0
    rw [LOGY, if_pos rfl]
    rw [if_neg (by simp : ¬(((0 : ℝ) < 0 ∧ 0 < y1) ∨ ((0 : ℝ) < 0 ∧ y1 < 0)))]
    by_cases h : 0 < y1
    · rw [if_pos h, if_pos ⟨rfl, h⟩]
    · rw [if_neg h, if_neg (fun hc => h hc.2)]
  · have hiff : (0 < y1 / y0) ↔ ((0 < y0 ∧ 0 < y1) ∨ (y0 < 0 ∧ y1 < 0)) := by
      rw [div_pos_iff]
      constructor
      · rintro (⟨h1, h0⟩ | ⟨h1, h0⟩)
        · exact Or.inl ⟨h0, h1⟩
        · exact Or.inr ⟨h0, h1⟩
      · rintro (⟨h0, h1⟩ | ⟨h0, h1⟩)
        · exact Or.inl ⟨h1, h0⟩
        · exact Or.inr ⟨h1, h0⟩
    rw [LOGY, if_neg hy0]
    by_cases h : (0 < y0 ∧ 0 < y1) ∨ (y0 < 0 ∧ y1 < 0)
    · rw [if_pos (hiff.mpr h), if_pos h]
    · rw [if_neg (fun hc => h (hiff.mp hc)), if_neg h,
        if_neg (fun hc => hy0 hc.1)]

/-- C7: after the bounds check of the inner trial loop of
optimal_estimation, and for every value of the state update, the trial
atmosphere satisfies p in [5e-7, 5e4], t in [100, 400], q in [0, 1],
k >= 0, clz >= 0, cldz >= 0.1, clk >= 0, sft in [100, 400] and
sfeps in [0, 1] at every profile point. -/
theorem check_atm_in_bounds (a : AtmQ) :
    atm_in_bounds (check_atm a) = true := by
  unfold atm_in_bounds check_atm
  simp only [Bool.and_eq_true]
  refine ⟨⟨⟨⟨⟨⟨⟨⟨?_, ?_⟩, ?_⟩, ?_⟩, ?_⟩, ?_⟩, ?_⟩, ?_⟩, ?_⟩
  · exact all_map_clamp a.p (by norm_num)
  · exact all_map_clamp a.t (by norm_num)
  · rw [List.all_map]
    rw [List.all_eq_true]
    intro col _
    exact all_map_clamp col (by norm_num)
  · rw [List.all_map]
    rw [List.all_eq_true]
    intro col _
    exact all_map_floor col 0
  · simp
  · simp
  · exact all_map_floor a.clk 0
  · simpa using clamp_bounds a.sft (by norm_num)
  · exact all_map_clamp a.sfeps (by norm_num)

/-- C4: on a channel whose reference radiances are all zero, the
relative-error loop of compute_rel_errors collects no samples, and the
mean relative error is the unguarded division by n = 0, which has no
defined value (none); no documented sentinel is produced. -/
theorem compute_rel_errors_no_guard :
    relerr_samples [1] [0] = [] ∧ mre_result [1] [0] = none := by decide

/-- C10: in the multiple-profile task of call_formod, the per-ray
atmosphere is exactly the list of atmosphere points whose time equals
the ray time, in their original order; and when that list is empty the
ray is returned untouched (its stored radiances and transmittances
kept) for every forward model F. -/
theorem call_formod_profile_selection
    (F : List AtmPt → RayQ → List ℚ × List ℚ) (atm : List AtmPt)
    (r : RayQ) :
    select_atm atm r.time = atm.filter (fun pt => decide (pt.time = r.time)) ∧
    (select_atm atm r.time = [] → call_formod_ray F atm r = r) := by
  have hsel : ∀ (l : List AtmPt) (t : ℚ) (acc : List AtmPt),
      l.foldl (fun acc pt => if pt.time = t then acc ++ [pt] else acc) acc =
        acc ++ l.filter (fun pt => decide (pt.time = t)) := by
    intro l t
    induction l with
    | nil => intro acc; simp
    | cons hd tl ih =>
      intro acc
      rw [List.foldl_cons, List.filter_cons]
      by_cases h : hd.time = t
      · simp [h, ih, List.append_assoc]
      · simp [h, ih]
  constructor
  · simpa [select_atm] using hsel atm r.time []
  · intro hempty
    simp [call_formod_ray, hempty]

/-- C10 witness: a ray whose time matches no atmosphere point keeps its
stored radiance and transmittance. -/
theorem call_formod_profile_selection_witness :
    call_formod_ray fmConst [ptOne] rayTwo = rayTwo :=
  (call_formod_profile_selection fmConst [ptOne] rayTwo).2 (by decide)

/-- C1 counterexample: with the trivial environment (constant zero
cost) the trial cost 0 strictly decreases below chisq_old = 2, the
trial is accepted, and lmpar becomes 1/10 of its value, not half of
it; moreover with chisq_old = 0 the cost does not decrease (it stays
equal) and the trial is still accepted rather than retried. -/
theorem lm_accept_counterexample :
    lm_trial_cost envAcc solveZero lmS0 < 2 ∧
    (lm_trial envAcc solveZero 2 lmS0).2 = true ∧
    (lm_trial envAcc solveZero 2 lmS0).1.lmpar = 1 / 10 ∧
    (1 : ℚ) / 10 ≠ 1 / 2 ∧
    lm_trial_cost envAcc solveZero lmS0 = 0 ∧
    (lm_trial envAcc solveZero 0 lmS0).2 = true := by
  norm_num [lm_trial, lm_trial_cost, envAcc, solveZero, lmS0]

/-- C1 amended: an inner-loop trial is accepted (and the loop exits)
exactly when the trial cost did not increase above the outer
iteration's stored value; on acceptance lmpar is divided by 10, on
rejection lmpar is multiplied by 10 and the step is subtracted back
from x_i, and the loop retries with the next trial. -/
theorem lm_inner_step_behavior {V W Atm Obs : Type}
    [AddCommGroup V] [AddCommGroup W]
    (E : RetEnv V W Atm Obs) (solve : ℚ → V) (c : ℚ) (k : ℕ)
    (s : LMState V W Atm Obs) :
    (lm_trial E solve c s).2 = decide (lm_trial_cost E solve s ≤ c) ∧
    (lm_trial E solve c s).1.lmpar =
      (if c < lm_trial_cost E solve s then s.lmpar * 10
       else s.lmpar / 10) ∧
    (lm_trial E solve c s).1.x_i =
      (if c < lm_trial_cost E solve s then s.x_i
       else s.x_i + solve s.lmpar) ∧
    lm_inner E solve c (k + 1) s =
      (if (lm_trial E solve c s).2 = true then (lm_trial E solve c s).1
       else lm_inner E solve c k (lm_trial E solve c s).1) := by
  have hc : lm_trial_cost E solve s =
      E.cost (s.x_i + solve s.lmpar - E.x_a)
        (E.y_m - E.mkY (E.mkObs (E.mkAtm (s.x_i + solve s.lmpar)))) := rfl
  refine ⟨?_, ?_, ?_, ?_⟩
  · by_cases h : c < lm_trial_cost E solve s
    · rw [lm_trial]
      rw [if_pos (hc ▸ h)]
      simp [not_le.mpr h]
    · rw [lm_trial]
      rw [if_neg (hc ▸ h)]
      simp [not_lt.mp h]
  · by_cases h : c < lm_trial_cost E solve s
    · rw [lm_trial]
      rw [if_pos (hc ▸ h), if_pos h]
    · rw [lm_trial]
      rw [if_neg (hc ▸ h), if_neg h]
  · by_cases h : c < lm_trial_cost E solve s
    · rw [lm_trial]
      rw [if_pos (hc ▸ h), if_pos h]
      exact add_sub_cancel_right s.x_i (solve s.lmpar)
    · rw [lm_trial]
      rw [if_neg (hc ▸ h), if_neg h]
  · rfl

/-- C9: when an inner-loop trial is rejected (the trial cost exceeds
the stored value), only the state vector x_i is reverted by
subtracting the step; the trial atmosphere, observation, fitted
measurement y_i, the departures dx and dy and the stored cost chisq
all keep the rejected trial's values. -/
theorem lm_reject_partial_revert {V W Atm Obs : Type}
    [AddCommGroup V] [AddCommGroup W]
    (E : RetEnv V W Atm Obs) (solve : ℚ → V) (c : ℚ)
    (s : LMState V W Atm Obs) (h : c < lm_trial_cost E solve s) :
    lm_trial E solve c s =
      (⟨s.x_i, s.lmpar * 10, lm_trial_cost E solve s,
        E.mkAtm (s.x_i + solve s.lmpar),
        E.mkObs (E.mkAtm (s.x_i + solve s.lmpar)),
        E.mkY (E.mkObs (E.mkAtm (s.x_i + solve s.lmpar))),
        s.x_i + solve s.lmpar - E.x_a,
        E.y_m - E.mkY (E.mkObs (E.mkAtm (s.x_i + solve s.lmpar))),
        solve s.lmpar⟩, false) := by
  have hc : lm_trial_cost E solve s =
      E.cost (s.x_i + solve s.lmpar - E.x_a)
        (E.y_m - E.mkY (E.mkObs (E.mkAtm (s.x_i + solve s.lmpar)))) := rfl
  rw [lm_trial]
  rw [if_pos (hc ▸ h)]
  rw [add_sub_cancel_right s.x_i (solve s.lmpar), hc]

/-- C9 witness: at a concrete rejected trial, x_i is reverted while the
other state components keep the trial's values. -/
theorem lm_reject_partial_revert_witness :
    (1 : ℚ) < lm_trial_cost envRej solveZero lmS0 ∧
    lm_trial envRej solveZero 1 lmS0 =
      (⟨0, 10, 5, 0, 0, 0, 0, 0, 0⟩, false) := by
  have hc : (1 : ℚ) < lm_trial_cost envRej solveZero lmS0 := by
    norm_num [lm_trial_cost, envRej, solveZero, lmS0]
  refine ⟨hc, ?_⟩
  rw [lm_reject_partial_revert envRej solveZero 1 lmS0 hc]
  norm_num [lm_trial_cost, envRej, solveZero, lmS0]

/-- C2 counterexample: in the run of the outer loop with
kernel_recomp = 3 and conv_dmin = 1/2, the normalised step size at the
end of iteration 2 is 0 < 1/2, yet iteration 3 is still performed
because the convergence test is skipped when it is neither 1 nor a
multiple of kernel_recomp. -/
theorem convergence_skip_counterexample :
    (lm_outer envSkip 5 1 sSkip).2 = [(1, 1), (2, 0), (3, 0)] ∧
    envSkip.dmin = 1 / 2 ∧ envSkip.krecomp = 3 := by
  refine ⟨?_, rfl, rfl⟩
  norm_num [lm_outer, lm_outer_iter, lm_inner, lm_trial, envSkip, envAcc,
    sSkip]

/-- C2 amended: the outer loop stops at the end of iteration it as
soon as the normalised step size disq is below conv_dmin AND the test
is reached, which happens only when it = 1 or it is a multiple of
kernel_recomp; that iteration is then the last one performed. -/
theorem lm_outer_guarded_convergence {V W Atm Obs Kmat Cov : Type}
    [AddCommGroup V] [AddCommGroup W]
    (E : OEnv V W Atm Obs Kmat Cov) (f it : ℕ)
    (s : OState V W Atm Obs Kmat Cov)
    (h1 : it = 1 ∨ it % E.krecomp = 0)
    (h2 : (lm_outer_iter E it s).2.1 < E.dmin) :
    lm_outer E (f + 1) it s =
      ((lm_outer_iter E it s).1, [(it, (lm_outer_iter E it s).2.1)]) := by
  have hb : (lm_outer_iter E it s).2.2 = true := decide_eq_true ⟨h1, h2⟩
  rw [lm_outer]
  rw [if_pos hb]

/-- C2 amended witness: a concrete run where the guarded convergence
test holds at iteration 1 and the loop stops there. -/
theorem lm_outer_guarded_convergence_witness :
    lm_outer envConv 1 1 sSkip =
      ((lm_outer_iter envConv 1 sSkip).1,
        [(1, (lm_outer_iter envConv 1 sSkip).2.1)]) :=
  lm_outer_guarded_convergence envConv 0 1 sSkip (Or.inl rfl)
    (by norm_num [lm_outer_iter, lm_inner, lm_trial, envConv, envAcc, sSkip])

/-- C8: the inner-loop linear system of optimal_estimation has exactly
the form the spec states: the assembled matrix is
A = (1 + lambda) S_a^-1 + K^T S_eps^-1 K, the assembled right-hand
side is b = K^T S_eps^-1 (y_m - y_i) - S_a^-1 (x_i - x_a), and any
step returned by the (external) Cholesky solve of the assembled system
solves A dx = b in that form. -/
theorem normal_equations_assembly {R : Type} [CommRing R] {m n : ℕ}
    (k : Matrix (Fin m) (Fin n) R) (sig : Fin m → R)
    (s_a_inv : Matrix (Fin n) (Fin n) R)
    (x_i x_a : Fin n → R) (y_m y_i : Fin m → R) (lmpar : R)
    (xstep : Fin n → R)
    (hsolve : (a_code s_a_inv (matrix_product_ksk k sig) lmpar).mulVec xstep =
      b_code k sig s_a_inv (x_i - x_a) (y_m - y_i)) :
    a_code s_a_inv (matrix_product_ksk k sig) lmpar =
      spec_A s_a_inv k sig lmpar ∧
    b_code k sig s_a_inv (x_i - x_a) (y_m - y_i) =
      spec_b k sig s_a_inv x_i x_a y_m y_i ∧
    (spec_A s_a_inv k sig lmpar).mulVec xstep =
      spec_b k sig s_a_inv x_i x_a y_m y_i := by
  have hA : a_code s_a_inv (matrix_product_ksk k sig) lmpar =
      spec_A s_a_inv k sig lmpar := rfl
  have hy : y_aux sig (y_m - y_i) = (s_eps_inv sig).mulVec (y_m - y_i) := by
    funext j
    rw [s_eps_inv, Matrix.mulVec_diagonal]
    exact mul_comm _ _
  have hB : b_code k sig s_a_inv (x_i - x_a) (y_m - y_i) =
      spec_b k sig s_a_inv x_i x_a y_m y_i := by
    rw [b_code, spec_b, hy]
  exact ⟨hA, hB, by rw [← hA, ← hB]; exact hsolve⟩

/-- C8 witness: at a concrete one-dimensional problem, the zero step
solves the assembled system and hence the spec-form system. -/
theorem normal_equations_assembly_witness :
    (a_code saId (matrix_product_ksk kZero sigOne) 0).mulVec vZero =
      b_code kZero sigOne saId (vZero - vZero) (vZero - vZero) ∧
    (spec_A saId kZero sigOne 0).mulVec vZero =
      spec_b kZero sigOne saId vZero vZero vZero vZero := by
  have hsolve : (a_code saId (matrix_product_ksk kZero sigOne) 0).mulVec
      vZero = b_code kZero sigOne saId (vZero - vZero) (vZero - vZero) := by
    funext i
    simp [a_code, b_code, y_aux, matrix_product_ksk, s_eps_inv, saId, kZero,
      vZero, Matrix.mulVec, Matrix.dotProduct]
  exact ⟨hsolve,
    (normal_equations_assembly kZero sigOne saId vZero vZero vZero vZero 0
      vZero hsolve).2.2⟩

end Jurassic
